import Mathlib

/-!
A shallow embedding of `subiquity/models/actions.py`: the network action
variants (`PhysicalAction`, `BridgeAction`, `VlanAction`, `BondAction`),
the storage action variants (`DiskAction`, `PartitionAction`,
`BcacheAction`, `FormatAction`, `MountAction`) and the two transform
functions `preserve_action` / `release_action`.

Python dictionaries are modelled as association lists of string keys and
dynamic values (`PVal`); Python exceptions as an error type `PyErr`
propagated through `Except`.
-/

namespace Subiquity

/-- A dynamic Python value: `None`, a bool, an int or a string. -/
inductive PVal where
  | none_ : PVal
  | b (v : Bool) : PVal
  | n (v : Int) : PVal
  | s (v : String) : PVal
deriving DecidableEq

/-- A Python dict with string keys, as an insertion-ordered association list. -/
abbrev Dict := List (String × PVal)

/-- Lookup `d[k]`, returning `none` when the key is absent. -/
def dfind (d : Dict) (k : String) : Option PVal :=
  (d.find? (fun p => p.1 == k)).map (fun p => p.2)

/-- Membership test `k in d`. -/
def hasKey (d : Dict) (k : String) : Bool :=
  d.any (fun p => p.1 == k)

/-- Assignment `d[k] = v` (also `d.update` of one key): replace in place
when the key exists, append otherwise (CPython dicts keep insertion
order). -/
def updateKey (d : Dict) (k : String) (v : PVal) : Dict :=
  if hasKey d k then d.map (fun p => if p.1 == k then (k, v) else p)
  else d ++ [(k, v)]

/-- Deletion `del d[k]`. -/
def delKey (d : Dict) (k : String) : Dict :=
  d.filter (fun p => p.1 != k)

/-- Python `==` on dicts: same key set and equal values (order-insensitive). -/
def dictEq (d1 d2 : Dict) : Bool :=
  d1.all (fun p => dfind d2 p.1 == dfind d1 p.1) &&
  d2.all (fun p => dfind d1 p.1 == dfind d2 p.1)

/-- The `preserve_action` function: deep copy with `preserve: True` set. -/
def preserve_action (action : Dict) : Dict :=
  updateKey action "preserve" (.b true)

/-- The `release_action` function: deep copy with the `preserve` key
dropped when present. -/
def release_action (action : Dict) : Dict :=
  if hasKey action "preserve" then delKey action "preserve" else action

/-- A Python exception: `AttributeError` (attribute access on an object
lacking it, e.g. `None.action_id`), a type-coercion failure from a builtin
such as `int()`/`len()` on an unsuitable value, or `Exception(msg)`. -/
inductive PyErr where
  | attributeError : PyErr
  | coercionError : PyErr
  | exc (msg : String) : PyErr
deriving DecidableEq

/-- Python `str()` on a dynamic value. -/
def pyStr : PVal → String
  | .none_ => "None"
  | .b true => "True"
  | .b false => "False"
  | .n v => toString v
  | .s v => v

/-- Python truthiness of a dynamic value. -/
def pyTruthy : PVal → Bool
  | .none_ => false
  | .b v => v
  | .n v => v != 0
  | .s v => v != ""

/-- Python `int()` coercion: ints pass through, bools become 0/1, numeric
strings parse, anything else raises a coercion error. -/
def pyInt : PVal → Except PyErr Int
  | .n v => .ok v
  | .b v => .ok (if v then 1 else 0)
  | .s v =>
    match v.toInt? with
    | some i => .ok i
    | none => .error .coercionError
  | .none_ => .error .coercionError

/-- Python `len()`: defined on strings, raises on the other `PVal`s. -/
def pyLen : PVal → Except PyErr Nat
  | .s v => .ok v.length
  | _ => .error .coercionError

/-- Python `str.startswith`. -/
def pyStartswith (s pre : String) : Bool :=
  pre.data.isPrefixOf s.data

/-! ## Storage actions

Every storage node exposes an `action_id` and (possibly) a `parent`; a
parent reference is any object with those two attributes. `Obj` is that
object view; a Python `None` parent is `Option.none`. -/

/-- An object with an `action_id` attribute and a `parent` attribute. -/
inductive Obj where
  | mk (action_id : String) (parent : Option Obj) : Obj

def Obj.action_id : Obj → String
  | .mk a _ => a

def Obj.parent : Obj → Option Obj
  | .mk _ p => p

/-- State of a constructed `DiskAction`. -/
structure DiskState where
  action_id_raw : PVal
  model : PVal
  serial : PVal
  ptable : PVal
  wipe : PVal
deriving DecidableEq

/-- Constructor `DiskAction.__init__(action_id, model, serial, ptable, wipe)`. -/
def DiskAction.init (action_id model serial ptable wipe : PVal) : DiskState :=
  ⟨action_id, model, serial, ptable, wipe⟩

/-- The `action_id` property: `str(self._action_id)`. -/
def DiskState.action_id (d : DiskState) : String :=
  pyStr d.action_id_raw

/-- Serializer `DiskAction.get`: the base mapping, plus `wipe` when
`self._wipe` is truthy. -/
def DiskState.get (d : DiskState) : Dict :=
  let action : Dict :=
    [("id", .s d.action_id), ("model", d.model), ("ptable", d.ptable),
     ("serial", d.serial), ("type", .s "disk")]
  if pyTruthy d.wipe then updateKey action "wipe" d.wipe else action

/-- A disk as a parent reference (`parent` is `None` on `DiskAction`). -/
def DiskState.toObj (d : DiskState) : Obj :=
  .mk d.action_id none

/-- State of a constructed `PartitionAction`. -/
structure PartitionState where
  parent : Obj
  partnum : Int
  offset_raw : Int
  size_raw : Int
  flags : Option String
  action_id_raw : String

/-- Constructor `PartitionAction.__init__(parent, partnum, offset, size, flags)`:
coerces the numeric fields with `int()` (in source order), then derives
`_action_id` from `parent.action_id` — an `AttributeError` right here when
the parent is `None` — and finally applies the `bios_grub` readability
override. -/
def PartitionAction.init (parent : Option Obj) (partnum offset size : PVal)
    (flags : Option String) : Except PyErr PartitionState :=
  match pyInt partnum, pyInt offset, pyInt size with
  | .error e, _, _ => .error e
  | .ok _, .error e, _ => .error e
  | .ok _, .ok _, .error e => .error e
  | .ok pn, .ok off, .ok sz =>
    match parent with
    | none => .error .attributeError
    | some p =>
      let aid := p.action_id ++ toString pn ++ "_part"
      .ok ⟨p, pn, off, sz, flags,
           if flags = some "bios_grub" then "bios_boot_partition" else aid⟩

def PartitionState.action_id (st : PartitionState) : String :=
  st.action_id_raw

def PartitionState.size (st : PartitionState) : Int :=
  st.size_raw

def PartitionState.offset (st : PartitionState) : Int :=
  st.offset_raw

/-- The optional `flags` attribute as a dynamic value (`None` or a string). -/
def flagVal : Option String → PVal
  | none => .none_
  | some f => .s f

/-- Serializer `PartitionAction.get`. -/
def PartitionState.get (st : PartitionState) : Dict :=
  [("device", .s st.parent.action_id), ("flag", flagVal st.flags),
   ("id", .s st.action_id), ("number", .n st.partnum),
   ("size", .s (toString st.size ++ "B")),
   ("offset", .s (toString st.offset ++ "B")),
   ("type", .s "partition")]

/-- A partition as a parent-bearing object reference. -/
def PartitionState.toObj (st : PartitionState) : Obj :=
  .mk st.action_id (some st.parent)

/-- State of a constructed `BcacheAction`. -/
structure BcacheState where
  bcachenum : Int
  backing_device : String
  cache_device : String
  action_id_raw : String

/-- Constructor `BcacheAction.__init__(backing_id, cache_id, bcache_num)`: resolves
`backing_id.parent.action_id` and `cache_id.parent.action_id` (the disk
underlying each argument, not the argument's own id). -/
def BcacheAction.init (backing_id cache_id : Obj) (bcache_num : PVal) :
    Except PyErr BcacheState :=
  match pyInt bcache_num with
  | .error e => .error e
  | .ok num =>
    match backing_id.parent with
    | none => .error .attributeError
    | some bp =>
      match cache_id.parent with
      | none => .error .attributeError
      | some cp =>
        .ok ⟨num, bp.action_id, cp.action_id, "bcache" ++ pyStr bcache_num⟩

def BcacheState.action_id (st : BcacheState) : String :=
  st.action_id_raw

/-- Serializer `BcacheAction.get`. -/
def BcacheState.get (st : BcacheState) : Dict :=
  [("backing_device", .s st.backing_device),
   ("cache_device", .s st.cache_device),
   ("id", .s st.action_id), ("type", .s "bcache")]

/-- State of a constructed `FormatAction`. -/
structure FormatState where
  parent : Obj
  fstype_raw : String
  action_id_raw : String

/-- Constructor `FormatAction.__init__(parent, fstype)`: derives the id
as `parent.action_id` plus `_fmt`,
truncates it to 11 characters for `fat*` types, and rewrites the stored
fstype to `swap` for `linux-swap*` types. -/
def FormatAction.init (parent : Option Obj) (fstype : String) :
    Except PyErr FormatState :=
  match parent with
  | none => .error .attributeError
  | some p =>
    let aid := p.action_id ++ "_fmt"
    if pyStartswith fstype "fat" then
      .ok ⟨p, fstype, String.mk (aid.data.take 11)⟩
    else if pyStartswith fstype "linux-swap" then
      .ok ⟨p, "swap", aid⟩
    else
      .ok ⟨p, fstype, aid⟩

def FormatState.action_id (st : FormatState) : String :=
  st.action_id_raw

def FormatState.fstype (st : FormatState) : String :=
  st.fstype_raw

/-- Serializer `FormatAction.get`. -/
def FormatState.get (st : FormatState) : Dict :=
  [("volume", .s st.parent.action_id), ("id", .s st.action_id),
   ("fstype", .s st.fstype), ("type", .s "format")]

/-- State of a constructed `MountAction`. -/
structure MountState where
  parent : Obj
  path : String
  action_id_raw : String

/-- Constructor `MountAction.__init__(parent, path)`. -/
def MountAction.init (parent : Option Obj) (path : String) :
    Except PyErr MountState :=
  match parent with
  | none => .error .attributeError
  | some p => .ok ⟨p, path, p.action_id ++ "_mnt"⟩

def MountState.action_id (st : MountState) : String :=
  st.action_id_raw

/-- Serializer `MountAction.get`. -/
def MountState.get (st : MountState) : Dict :=
  [("device", .s st.parent.action_id), ("id", .s st.action_id),
   ("path", .s st.path), ("type", .s "mount")]

/-! ## Network actions

`NetAction.__init__` copies the whole option bag onto the instance and
records `_action_keys`; `get` filters the instance attributes down to the
recorded keys. Each subclass validates before calling the base
constructor, then extends `_action_keys`. -/

/-- State of a constructed network action: the raw option bag and the
accumulated `_action_keys` whitelist. -/
structure NetState where
  opts : Dict
  action_keys : List String

/-- The base `_action_keys` set by `NetAction.__init__`. -/
def netActionKeys : List String :=
  ["type", "name", "params", "subnets"]

/-- Serializer `NetAction.get`: filter the stored attributes by
`_action_keys`. -/
def NetState.get (st : NetState) : Dict :=
  st.opts.filter (fun p => st.action_keys.contains p.1)

/-- Constructor `PhysicalAction.__init__(**options)`. -/
def PhysicalAction.init (options : Dict) : Except PyErr NetState :=
  if dfind options "type" ≠ some (.s "physical") then
    .error (.exc "Invalid type for PhysicalAction")
  else
    match dfind options "name" with
    | none => .error (.exc "Invalid name for PhysicalAction")
    | some v =>
      match pyLen v with
      | .error e => .error e
      | .ok l =>
        if l = 0 then .error (.exc "Invalid name for PhysicalAction")
        else if hasKey options "mac_address" = false then
          .error (.exc "PhysicalAction requires a valid mac_address attr")
        else .ok ⟨options, netActionKeys ++ ["mac_address"]⟩

/-- Constructor `BridgeAction.__init__(**options)`. -/
def BridgeAction.init (options : Dict) : Except PyErr NetState :=
  if dfind options "type" ≠ some (.s "bridge") then
    .error (.exc "Invalid type for BridgeAction")
  else
    match dfind options "name" with
    | none => .error (.exc "Invalid name for BridgeAction")
    | some v =>
      match pyLen v with
      | .error e => .error e
      | .ok l =>
        if l = 0 then .error (.exc "Invalid name for BridgeAction")
        else if hasKey options "bridge_interfaces" = false then
          .error (.exc "BridgeAction requires bridge_interfaces attr")
        else .ok ⟨options, netActionKeys ++ ["bridge_interfaces"]⟩

/-- Constructor `VlanAction.__init__(**options)`. -/
def VlanAction.init (options : Dict) : Except PyErr NetState :=
  if dfind options "type" ≠ some (.s "vlan") then
    .error (.exc "Invalid type for VlanAction")
  else
    match dfind options "name" with
    | none => .error (.exc "Invalid name for VlanAction")
    | some v =>
      match pyLen v with
      | .error e => .error e
      | .ok l =>
        if l = 0 then .error (.exc "Invalid name for VlanAction")
        else if hasKey options "vlan_id" = false ∨ hasKey options "vlan_link" = false then
          .error (.exc "VlanAction requires vlan_id and vlan_link attr")
        else .ok ⟨options, netActionKeys ++ ["vlan_id", "vlan_link"]⟩

/-- Constructor `BondAction.__init__(**options)`. -/
def BondAction.init (options : Dict) : Except PyErr NetState :=
  if dfind options "type" ≠ some (.s "bond") then
    .error (.exc "Invalid type for BondAction")
  else
    match dfind options "name" with
    | none => .error (.exc "Invalid name for BondAction")
    | some v =>
      match pyLen v with
      | .error e => .error e
      | .ok l =>
        if l = 0 then .error (.exc "Invalid name for BondAction")
        else if hasKey options "bond_interfaces" = false then
          .error (.exc "BondAction requires bond_interfaces attr")
        else .ok ⟨options, netActionKeys ++ ["bond_interfaces"]⟩

/-- The four network action variants. -/
inductive NetVariant where
  | physical : NetVariant
  | bridge : NetVariant
  | vlan : NetVariant
  | bond : NetVariant
deriving DecidableEq

/-- Python class name of a variant. -/
def NetVariant.clsName : NetVariant → String
  | .physical => "PhysicalAction"
  | .bridge => "BridgeAction"
  | .vlan => "VlanAction"
  | .bond => "BondAction"

/-- The `type` tag a variant requires. -/
def NetVariant.tag : NetVariant → String
  | .physical => "physical"
  | .bridge => "bridge"
  | .vlan => "vlan"
  | .bond => "bond"

/-- Dispatch to the variant's constructor. -/
def NetVariant.init : NetVariant → Dict → Except PyErr NetState
  | .physical => PhysicalAction.init
  | .bridge => BridgeAction.init
  | .vlan => VlanAction.init
  | .bond => BondAction.init

/-- Whether the variant-required fields are all present. -/
def NetVariant.reqOk : NetVariant → Dict → Bool
  | .physical, o => hasKey o "mac_address"
  | .bridge, o => hasKey o "bridge_interfaces"
  | .vlan, o => hasKey o "vlan_id" && hasKey o "vlan_link"
  | .bond, o => hasKey o "bond_interfaces"

/-- The message raised when a variant-required field is missing. -/
def NetVariant.reqMsg : NetVariant → String
  | .physical => "PhysicalAction requires a valid mac_address attr"
  | .bridge => "BridgeAction requires bridge_interfaces attr"
  | .vlan => "VlanAction requires vlan_id and vlan_link attr"
  | .bond => "BondAction requires bond_interfaces attr"

/-- The `_action_keys` extension of a variant. -/
def NetVariant.extKeys : NetVariant → List String
  | .physical => ["mac_address"]
  | .bridge => ["bridge_interfaces"]
  | .vlan => ["vlan_id", "vlan_link"]
  | .bond => ["bond_interfaces"]

/-! ## Helper lemmas -/

lemma string_eq_empty_of_length_zero (s : String) (h : s.length = 0) :
    s = "" := by
  cases s with
  | mk data =>
    cases data with
    | nil => rfl
    | cons c cs => simp [String.length] at h

/-- C1: a `Partition` built from a parent with id `P` and partnum `N` gets
`action_id = P ++ toString N ++ "_part"`, except that `flags = "bios_grub"`
forces the fixed literal `"bios_boot_partition"`. -/
theorem partition_action_id (p : Obj) (N off sz : Int) (flags : Option String)
    (st : PartitionState)
    (h : PartitionAction.init (some p) (.n N) (.n off) (.n sz) flags = .ok st) :
    (flags = some "bios_grub" → st.action_id = "bios_boot_partition") ∧
    (flags ≠ some "bios_grub" →
      st.action_id = p.action_id ++ toString N ++ "_part") := by
  simp only [PartitionAction.init, pyInt] at h
  injection h with h
  subst h
  refine ⟨fun hf => ?_, fun hf => ?_⟩
  · simp [PartitionState.action_id, hf]
  · simp [PartitionState.action_id, hf]

theorem partition_action_id_witness :
    PartitionAction.init (some (Obj.mk "sda" none)) (.n 1) (.n 0) (.n 1048576)
        none
      = .ok ⟨Obj.mk "sda" none, 1, 0, 1048576, none, "sda1_part"⟩ ∧
    (⟨Obj.mk "sda" none, 1, 0, 1048576, none, "sda1_part"⟩
        : PartitionState).action_id
      = (Obj.mk "sda" none).action_id ++ toString (1 : Int) ++ "_part" :=
  ⟨rfl,
   (partition_action_id (Obj.mk "sda" none) 1 0 1048576 none _ rfl).2
     (by decide)⟩

/-- C3: the serialized `backing_device` / `cache_device` of a `Bcache` are
the `action_id`s of the *parents* of the given nodes, and the bcache's own
`action_id` is `"bcache" ++ str(bcache_num)`. -/
theorem bcache_device_resolution (B C pb pc : Obj) (num : Int)
    (st : BcacheState)
    (hB : B.parent = some pb) (hC : C.parent = some pc)
    (h : BcacheAction.init B C (.n num) = .ok st) :
    dfind st.get "backing_device" = some (.s pb.action_id) ∧
    dfind st.get "cache_device" = some (.s pc.action_id) ∧
    st.action_id = "bcache" ++ toString num := by
  simp only [BcacheAction.init, pyInt, hB, hC] at h
  injection h with h
  subst h
  refine ⟨?_, ?_, rfl⟩ <;>
    simp [BcacheState.get, BcacheState.action_id, dfind, List.find?]

theorem bcache_device_resolution_witness :
    dfind (⟨0, "sda", "sdb", "bcache0"⟩ : BcacheState).get "backing_device"
      = some (.s (Obj.mk "sda" none).action_id) ∧
    dfind (⟨0, "sda", "sdb", "bcache0"⟩ : BcacheState).get "cache_device"
      = some (.s (Obj.mk "sdb" none).action_id) ∧
    (⟨0, "sda", "sdb", "bcache0"⟩ : BcacheState).action_id
      = "bcache" ++ toString (0 : Int) :=
  bcache_device_resolution
    (Obj.mk "sda1_part" (some (Obj.mk "sda" none)))
    (Obj.mk "sdb1_part" (some (Obj.mk "sdb" none)))
    (Obj.mk "sda" none) (Obj.mk "sdb" none) 0 _ rfl rfl rfl

/-- C4 counterexample: constructing a `Mount` with a `None` parent does NOT
succeed — `__init__` itself fails with the attribute error, so the failure
is not deferred to `serialize()`. -/
theorem mount_init_none_parent_fails :
    MountAction.init none "/" = .error .attributeError := rfl

/-- C4 (amended): every parent-bearing storage constructor reads
`parent.action_id` inside `__init__`, so a parent lacking the accessor
surfaces the attribute error at construction time; no object exists to
serialize. -/
theorem parent_none_fails_at_init (partnum offset size : Int)
    (flags : Option String) (path fstype : String) :
    PartitionAction.init none (.n partnum) (.n offset) (.n size) flags
      = .error .attributeError ∧
    FormatAction.init none fstype = .error .attributeError ∧
    MountAction.init none path = .error .attributeError :=
  ⟨rfl, rfl, rfl⟩

/-- C10: `DiskAction.get` emits the `wipe` key exactly when the `wipe`
argument is truthy; a falsy `wipe` (e.g. `""` or `False`) serializes
exactly like an omitted one (`None`). -/
theorem disk_wipe_serialization (aid model serial ptable wipe : PVal) :
    hasKey (DiskAction.init aid model serial ptable wipe).get "wipe"
      = pyTruthy wipe ∧
    (pyTruthy wipe = true →
      dfind (DiskAction.init aid model serial ptable wipe).get "wipe"
        = some wipe) ∧
    (pyTruthy wipe = false →
      (DiskAction.init aid model serial ptable wipe).get
        = (DiskAction.init aid model serial ptable .none_).get) := by
  have hn : pyTruthy PVal.none_ = false := rfl
  cases hw : pyTruthy wipe <;>
    simp [DiskAction.init, DiskState.get, DiskState.action_id, hw, hn,
      hasKey, updateKey, dfind, List.find?, List.any]

lemma startswith_linuxswap_not_fat (F : String) :
    pyStartswith F "linux-swap" = true → pyStartswith F "fat" = false := by
  unfold pyStartswith
  intro h1
  cases hF : F.data with
  | nil =>
    rw [hF] at h1
    exact absurd h1 (by decide)
  | cons c cs =>
    rw [hF] at h1
    have hls : "linux-swap".data
        = ['l', 'i', 'n', 'u', 'x', '-', 's', 'w', 'a', 'p'] := rfl
    have hfat : "fat".data = ['f', 'a', 't'] := rfl
    rw [hls] at h1
    rw [hfat]
    simp [List.isPrefixOf] at h1 ⊢
    intro hc
    rw [← hc] at h1
    exact absurd h1.1 (by decide)

/-- C2: `Format` id/fstype normalizations: `fat*` truncates the derived id
`P ++ "_fmt"` to its first 11 characters and keeps the fstype;
`linux-swap*` stores the literal `"swap"` fstype and keeps the id
untruncated; anything else keeps both. -/
theorem format_action_id_fstype (p : Obj) (F : String) (st : FormatState)
    (h : FormatAction.init (some p) F = .ok st) :
    (pyStartswith F "fat" = true →
      st.action_id = String.mk ((p.action_id ++ "_fmt").data.take 11) ∧
      st.action_id.length ≤ 11 ∧ st.fstype = F ∧
      dfind st.get "fstype" = some (.s F)) ∧
    (pyStartswith F "linux-swap" = true →
      dfind st.get "fstype" = some (.s "swap") ∧ st.fstype = "swap" ∧
      st.action_id = p.action_id ++ "_fmt") ∧
    (pyStartswith F "fat" = false → pyStartswith F "linux-swap" = false →
      st.action_id = p.action_id ++ "_fmt" ∧ st.fstype = F) := by
  refine ⟨fun hf => ?_, fun hl => ?_, fun hf hl => ?_⟩
  · rw [FormatAction.init, hf] at h
    simp only [if_true] at h
    injection h with h
    subst h
    refine ⟨rfl, ?_, rfl, ?_⟩
    · show ((p.action_id ++ "_fmt").data.take 11).length ≤ 11
      exact List.length_take_le 11 _
    · simp [FormatState.get, FormatState.fstype, dfind, List.find?]
  · have hf := startswith_linuxswap_not_fat F hl
    rw [FormatAction.init, hf, hl] at h
    simp only [Bool.false_eq_true, if_false, if_true] at h
    injection h with h
    subst h
    refine ⟨?_, rfl, rfl⟩
    simp [FormatState.get, FormatState.fstype, dfind, List.find?]
  · rw [FormatAction.init, hf, hl] at h
    simp only [Bool.false_eq_true, if_false] at h
    injection h with h
    subst h
    exact ⟨rfl, rfl⟩

theorem format_action_id_fstype_witness :
    pyStartswith "fat32" "fat" = true ∧
    ((⟨Obj.mk "sda1_part" none, "fat32", "sda1_part_f"⟩
        : FormatState).action_id
      = String.mk (((Obj.mk "sda1_part" none).action_id ++ "_fmt").data.take 11) ∧
    (⟨Obj.mk "sda1_part" none, "fat32", "sda1_part_f"⟩
        : FormatState).action_id.length ≤ 11 ∧
    (⟨Obj.mk "sda1_part" none, "fat32", "sda1_part_f"⟩
        : FormatState).fstype = "fat32" ∧
    dfind (⟨Obj.mk "sda1_part" none, "fat32", "sda1_part_f"⟩
        : FormatState).get "fstype" = some (.s "fat32")) :=
  ⟨by decide,
   (format_action_id_fstype (Obj.mk "sda1_part" none) "fat32" _ rfl).1
     (by decide)⟩

lemma hasKey_eq_false_iff (d : Dict) (k : String) :
    hasKey d k = false ↔ ∀ p ∈ d, p.1 ≠ k := by
  simp [hasKey, List.any_eq_false]

lemma hasKey_eq_true_iff (d : Dict) (k : String) :
    hasKey d k = true ↔ ∃ p ∈ d, p.1 = k := by
  simp [hasKey, List.any_eq_true]

lemma map_keep_of_no_key (x : Dict) (k : String) (v : PVal)
    (h : ∀ p ∈ x, p.1 ≠ k) :
    x.map (fun p => if p.1 == k then (k, v) else p) = x := by
  induction x with
  | nil => rfl
  | cons a tl ih =>
    have ha : ¬ a.1 = k := h a (List.mem_cons_self a tl)
    have htl : ∀ p ∈ tl, p.1 ≠ k := fun p hp => h p (List.mem_cons_of_mem a hp)
    rw [List.map_cons, ih htl]
    simp [ha]

lemma filter_keep_of_no_key (x : Dict) (k : String)
    (h : ∀ p ∈ x, p.1 ≠ k) :
    x.filter (fun p => p.1 != k) = x := by
  induction x with
  | nil => rfl
  | cons a tl ih =>
    have ha : ¬ a.1 = k := h a (List.mem_cons_self a tl)
    have htl : ∀ p ∈ tl, p.1 ≠ k := fun p hp => h p (List.mem_cons_of_mem a hp)
    simp [List.filter_cons, bne_iff_ne, ha, ih htl]

lemma hasKey_map_update (x : Dict) (k : String) (v : PVal)
    (h : hasKey x k = true) :
    hasKey (x.map (fun p => if p.1 == k then (k, v) else p)) k = true := by
  rw [hasKey_eq_true_iff] at h ⊢
  obtain ⟨p, hp, hpk⟩ := h
  refine ⟨(k, v), List.mem_map.mpr ⟨p, hp, ?_⟩, rfl⟩
  simp [hpk]

lemma hasKey_delKey (x : Dict) (k : String) :
    hasKey (delKey x k) k = false := by
  rw [hasKey_eq_false_iff]
  intro p hp
  simp only [delKey] at hp
  have := (List.mem_filter.mp hp).2
  simpa [bne_iff_ne] using this

/-- C5 counterexample: on a mapping that already has a `preserve` key,
`release(preserve(x))` drops the key instead of restoring `x`, so the
round trip is not the identity there (Python `==` on dicts). -/
theorem preserve_release_roundtrip_cex :
    dictEq (release_action (preserve_action [("preserve", PVal.b true)]))
      [("preserve", PVal.b true)] = false := by decide

/-- C5 (amended): for every mapping without a `preserve` key,
`release(preserve(x)) = x` and `release(x) = x`; the functions are pure,
returning fresh mappings and never altering the argument. -/
theorem preserve_release_roundtrip (x : Dict)
    (h : hasKey x "preserve" = false) :
    release_action (preserve_action x) = x ∧ release_action x = x := by
  have h2 : release_action x = x := by
    simp [release_action, h]
  refine ⟨?_, h2⟩
  have hp : preserve_action x = x ++ [("preserve", .b true)] := by
    simp [preserve_action, updateKey, h]
  rw [hp]
  have hk : hasKey (x ++ [("preserve", PVal.b true)]) "preserve" = true := by
    simp [hasKey, List.any_append]
  simp only [release_action, hk, if_true, delKey]
  rw [List.filter_append]
  have hone : List.filter (fun p => p.1 != "preserve")
      [("preserve", PVal.b true)] = [] := rfl
  rw [hone, List.append_nil]
  exact filter_keep_of_no_key x "preserve"
    ((hasKey_eq_false_iff x "preserve").mp h)

theorem preserve_release_roundtrip_witness :
    hasKey [("id", PVal.s "a")] "preserve" = false ∧
    (release_action (preserve_action [("id", PVal.s "a")])
        = [("id", PVal.s "a")] ∧
     release_action [("id", PVal.s "a")] = [("id", PVal.s "a")]) :=
  ⟨by decide, preserve_release_roundtrip [("id", PVal.s "a")] (by decide)⟩

/-- C9: `preserve_action` and `release_action` are idempotent on any
mapping. -/
theorem preserve_release_idempotent (x : Dict) :
    preserve_action (preserve_action x) = preserve_action x ∧
    release_action (release_action x) = release_action x := by
  constructor
  · by_cases hk : hasKey x "preserve" = true
    · simp only [preserve_action, updateKey, hk, if_true,
        hasKey_map_update x "preserve" (.b true) hk]
      rw [List.map_map]
      apply List.map_congr_left
      intro a _
      by_cases ha : a.1 = "preserve"
      · simp [Function.comp, ha]
      · simp [Function.comp, ha]
    · simp only [Bool.not_eq_true] at hk
      have hp : preserve_action x = x ++ [("preserve", PVal.b true)] := by
        simp [preserve_action, updateKey, hk]
      rw [hp]
      have hk2 : hasKey (x ++ [("preserve", PVal.b true)]) "preserve"
          = true := by
        simp [hasKey, List.any_append]
      simp only [preserve_action, updateKey, hk2, if_true]
      rw [List.map_append, map_keep_of_no_key x "preserve" (.b true)
        ((hasKey_eq_false_iff x "preserve").mp hk)]
      rfl
  · by_cases hk : hasKey x "preserve" = true
    · simp only [release_action, hk, if_true]
      simp [release_action, hasKey_delKey x "preserve"]
    · simp only [Bool.not_eq_true] at hk
      simp [release_action, hk]

theorem disk_wipe_serialization_witness :
    pyTruthy (PVal.s "") = false ∧
    (DiskAction.init (.s "sda") (.s "QEMU") (.s "serial0") (.s "gpt")
        (.s "")).get
      = (DiskAction.init (.s "sda") (.s "QEMU") (.s "serial0") (.s "gpt")
          .none_).get :=
  ⟨by decide,
   (disk_wipe_serialization (.s "sda") (.s "QEMU") (.s "serial0") (.s "gpt")
       (.s "")).2.2 (by decide)⟩

/-- C6: every network variant validates in order — type tag, then
non-empty name, then variant-required fields — the first failing check
raising an `Exception` whose message names the variant; when all checks
pass, construction succeeds holding exactly the raw option bag (a failed
construction returns only the error, never partial state). -/
theorem net_validation_order (v : NetVariant) (opts : Dict) :
    (dfind opts "type" ≠ some (.s v.tag) →
      v.init opts = .error (.exc ("Invalid type for " ++ v.clsName))) ∧
    (dfind opts "type" = some (.s v.tag) →
      (dfind opts "name" = none ∨ dfind opts "name" = some (.s "")) →
      v.init opts = .error (.exc ("Invalid name for " ++ v.clsName))) ∧
    (∀ nm : String, dfind opts "type" = some (.s v.tag) →
      dfind opts "name" = some (.s nm) → nm ≠ "" →
      v.reqOk opts = false →
      v.init opts = .error (.exc v.reqMsg)) ∧
    (∀ nm : String, dfind opts "type" = some (.s v.tag) →
      dfind opts "name" = some (.s nm) → nm ≠ "" →
      v.reqOk opts = true →
      v.init opts = .ok ⟨opts, netActionKeys ++ v.extKeys⟩) := by
  cases v with
  | physical =>
    refine ⟨fun ht => ?_, fun ht hn => ?_, fun nm ht hn hne hr => ?_,
      fun nm ht hn hne hr => ?_⟩
    · simp only [NetVariant.init, NetVariant.tag, NetVariant.clsName,
        PhysicalAction.init] at ht ⊢
      rw [if_pos ht]
      rfl
    · simp only [NetVariant.init, NetVariant.tag, NetVariant.clsName,
        PhysicalAction.init] at ht ⊢
      rw [if_neg (not_not_intro ht)]
      rcases hn with hn | hn <;> rw [hn] <;> rfl
    · simp only [NetVariant.init, NetVariant.tag, NetVariant.reqOk,
        NetVariant.reqMsg, PhysicalAction.init] at ht hr ⊢
      rw [if_neg (not_not_intro ht), hn]
      have hlen : ¬ nm.length = 0 := fun hz =>
        hne (string_eq_empty_of_length_zero nm hz)
      simp only [pyLen]
      rw [if_neg hlen, if_pos hr]
    · simp only [NetVariant.init, NetVariant.tag, NetVariant.reqOk,
        NetVariant.extKeys, PhysicalAction.init] at ht hr ⊢
      rw [if_neg (not_not_intro ht), hn]
      have hlen : ¬ nm.length = 0 := fun hz =>
        hne (string_eq_empty_of_length_zero nm hz)
      simp only [pyLen]
      rw [if_neg hlen, if_neg (by simp [hr])]
  | bridge =>
    refine ⟨fun ht => ?_, fun ht hn => ?_, fun nm ht hn hne hr => ?_,
      fun nm ht hn hne hr => ?_⟩
    · simp only [NetVariant.init, NetVariant.tag, NetVariant.clsName,
        BridgeAction.init] at ht ⊢
      rw [if_pos ht]
      rfl
    · simp only [NetVariant.init, NetVariant.tag, NetVariant.clsName,
        BridgeAction.init] at ht ⊢
      rw [if_neg (not_not_intro ht)]
      rcases hn with hn | hn <;> rw [hn] <;> rfl
    · simp only [NetVariant.init, NetVariant.tag, NetVariant.reqOk,
        NetVariant.reqMsg, BridgeAction.init] at ht hr ⊢
      rw [if_neg (not_not_intro ht), hn]
      have hlen : ¬ nm.length = 0 := fun hz =>
        hne (string_eq_empty_of_length_zero nm hz)
      simp only [pyLen]
      rw [if_neg hlen, if_pos hr]
    · simp only [NetVariant.init, NetVariant.tag, NetVariant.reqOk,
        NetVariant.extKeys, BridgeAction.init] at ht hr ⊢
      rw [if_neg (not_not_intro ht), hn]
      have hlen : ¬ nm.length = 0 := fun hz =>
        hne (string_eq_empty_of_length_zero nm hz)
      simp only [pyLen]
      rw [if_neg hlen, if_neg (by simp [hr])]
  | vlan =>
    refine ⟨fun ht => ?_, fun ht hn => ?_, fun nm ht hn hne hr => ?_,
      fun nm ht hn hne hr => ?_⟩
    · simp only [NetVariant.init, NetVariant.tag, NetVariant.clsName,
        VlanAction.init] at ht ⊢
      rw [if_pos ht]
      rfl
    · simp only [NetVariant.init, NetVariant.tag, NetVariant.clsName,
        VlanAction.init] at ht ⊢
      rw [if_neg (not_not_intro ht)]
      rcases hn with hn | hn <;> rw [hn] <;> rfl
    · simp only [NetVariant.init, NetVariant.tag, NetVariant.reqOk,
        NetVariant.reqMsg, VlanAction.init] at ht hr ⊢
      rw [if_neg (not_not_intro ht), hn]
      have hlen : ¬ nm.length = 0 := fun hz =>
        hne (string_eq_empty_of_length_zero nm hz)
      have hcond : hasKey opts "vlan_id" = false ∨
          hasKey opts "vlan_link" = false := by
        cases h1 : hasKey opts "vlan_id" <;>
          cases h2 : hasKey opts "vlan_link" <;> simp_all
      simp only [pyLen]
      rw [if_neg hlen, if_pos hcond]
    · simp only [NetVariant.init, NetVariant.tag, NetVariant.reqOk,
        NetVariant.extKeys, VlanAction.init] at ht hr ⊢
      rw [Bool.and_eq_true] at hr
      rw [if_neg (not_not_intro ht), hn]
      have hlen : ¬ nm.length = 0 := fun hz =>
        hne (string_eq_empty_of_length_zero nm hz)
      simp only [pyLen]
      rw [if_neg hlen, if_neg (by simp [hr.1, hr.2])]
  | bond =>
    refine ⟨fun ht => ?_, fun ht hn => ?_, fun nm ht hn hne hr => ?_,
      fun nm ht hn hne hr => ?_⟩
    · simp only [NetVariant.init, NetVariant.tag, NetVariant.clsName,
        BondAction.init] at ht ⊢
      rw [if_pos ht]
      rfl
    · simp only [NetVariant.init, NetVariant.tag, NetVariant.clsName,
        BondAction.init] at ht ⊢
      rw [if_neg (not_not_intro ht)]
      rcases hn with hn | hn <;> rw [hn] <;> rfl
    · simp only [NetVariant.init, NetVariant.tag, NetVariant.reqOk,
        NetVariant.reqMsg, BondAction.init] at ht hr ⊢
      rw [if_neg (not_not_intro ht), hn]
      have hlen : ¬ nm.length = 0 := fun hz =>
        hne (string_eq_empty_of_length_zero nm hz)
      simp only [pyLen]
      rw [if_neg hlen, if_pos hr]
    · simp only [NetVariant.init, NetVariant.tag, NetVariant.reqOk,
        NetVariant.extKeys, BondAction.init] at ht hr ⊢
      rw [if_neg (not_not_intro ht), hn]
      have hlen : ¬ nm.length = 0 := fun hz =>
        hne (string_eq_empty_of_length_zero nm hz)
      simp only [pyLen]
      rw [if_neg hlen, if_neg (by simp [hr])]

theorem net_validation_order_witness :
    NetVariant.vlan.init
        [("type", .s "vlan"), ("name", .s "eth0.100"),
         ("vlan_id", .n 100), ("vlan_link", .s "eth0")]
      = .ok ⟨[("type", .s "vlan"), ("name", .s "eth0.100"),
              ("vlan_id", .n 100), ("vlan_link", .s "eth0")],
             netActionKeys ++ NetVariant.vlan.extKeys⟩ :=
  (net_validation_order .vlan
      [("type", .s "vlan"), ("name", .s "eth0.100"),
       ("vlan_id", .n 100), ("vlan_link", .s "eth0")]).2.2.2
    "eth0.100" (by decide) (by decide) (by decide) (by decide)

lemma netInit_ok (v : NetVariant) (opts : Dict) (st : NetState)
    (h : v.init opts = .ok st) :
    st = ⟨opts, netActionKeys ++ v.extKeys⟩ := by
  cases v <;>
    simp only [NetVariant.init, NetVariant.extKeys, PhysicalAction.init,
      BridgeAction.init, VlanAction.init, BondAction.init] at h <;>
    (repeat' split at h) <;>
    first
      | (injection h with h; exact h.symm)
      | injection h

/-- C7: a successfully constructed network action serializes exactly the
keys that are both declared for the variant (base keys plus extensions)
and supplied in the option bag; any other supplied option is dropped. -/
theorem net_serialize_keys (v : NetVariant) (opts : Dict) (st : NetState)
    (h : v.init opts = .ok st) (k : String) :
    k ∈ st.get.map Prod.fst ↔
      k ∈ netActionKeys ++ v.extKeys ∧ k ∈ opts.map Prod.fst := by
  have hst := netInit_ok v opts st h
  subst hst
  simp only [NetState.get]
  constructor
  · intro hk
    rcases List.mem_map.mp hk with ⟨p, hp, rfl⟩
    rcases List.mem_filter.mp hp with ⟨hpo, hpc⟩
    refine ⟨?_, List.mem_map.mpr ⟨p, hpo, rfl⟩⟩
    simpa using hpc
  · rintro ⟨hkk, hko⟩
    rcases List.mem_map.mp hko with ⟨p, hp, rfl⟩
    refine List.mem_map.mpr ⟨p, List.mem_filter.mpr ⟨hp, ?_⟩, rfl⟩
    simpa using hkk

theorem net_serialize_keys_witness :
    ("mtu" ∈ (⟨[("type", .s "vlan"), ("name", .s "eth0.100"),
                ("vlan_id", .n 100), ("vlan_link", .s "eth0"),
                ("mtu", .n 1500)],
               netActionKeys ++ NetVariant.vlan.extKeys⟩
        : NetState).get.map Prod.fst) ↔
      ("mtu" ∈ netActionKeys ++ NetVariant.vlan.extKeys ∧
       "mtu" ∈ ([("type", PVal.s "vlan"), ("name", PVal.s "eth0.100"),
                 ("vlan_id", PVal.n 100), ("vlan_link", PVal.s "eth0"),
                 ("mtu", PVal.n 1500)] : Dict).map Prod.fst) :=
  net_serialize_keys .vlan
    [("type", .s "vlan"), ("name", .s "eth0.100"),
     ("vlan_id", .n 100), ("vlan_link", .s "eth0"), ("mtu", .n 1500)]
    _ rfl "mtu"

/-- C8: a `Partition` serializes `size` and `offset` as
`str(int(value)) ++ "B"` — the stored fields being the `int()` coercions
of the constructor arguments — and the constructor propagates the
coercion error raised by `int()` on non-numeric input, checking `partnum`,
`offset`, `size` in that order. -/
theorem partition_numeric_fields (p : Obj) (partnum offset size : PVal)
    (flags : Option String) :
    (∀ st : PartitionState,
      PartitionAction.init (some p) partnum offset size flags = .ok st →
      dfind st.get "size" = some (.s (toString st.size ++ "B")) ∧
      dfind st.get "offset" = some (.s (toString st.offset ++ "B")) ∧
      pyInt partnum = .ok st.partnum ∧ pyInt offset = .ok st.offset ∧
      pyInt size = .ok st.size) ∧
    (∀ e, pyInt partnum = .error e →
      PartitionAction.init (some p) partnum offset size flags = .error e) ∧
    (∀ i e, pyInt partnum = .ok i → pyInt offset = .error e →
      PartitionAction.init (some p) partnum offset size flags = .error e) ∧
    (∀ i j e, pyInt partnum = .ok i → pyInt offset = .ok j →
      pyInt size = .error e →
      PartitionAction.init (some p) partnum offset size flags = .error e) := by
  refine ⟨fun st h => ?_, fun e he => ?_, fun i e hi he => ?_,
    fun i j e hi hj he => ?_⟩
  · simp only [PartitionAction.init] at h
    split at h
    · exact absurd h (by simp)
    · exact absurd h (by simp)
    · exact absurd h (by simp)
    · rename_i pn off sz hpn hoff hsz
      injection h with h
      subst h
      refine ⟨?_, ?_, hpn, hoff, hsz⟩ <;>
        simp [PartitionState.get, PartitionState.size, PartitionState.offset,
          PartitionState.action_id, dfind, List.find?]
  · simp only [PartitionAction.init, he]
  · simp only [PartitionAction.init, hi, he]
  · simp only [PartitionAction.init, hi, hj, he]

theorem partition_numeric_fields_witness :
    dfind (⟨Obj.mk "sda" none, 1, 0, 1048576, none, "sda1_part"⟩
        : PartitionState).get "size"
      = some (.s (toString (⟨Obj.mk "sda" none, 1, 0, 1048576, none,
          "sda1_part"⟩ : PartitionState).size ++ "B")) ∧
    dfind (⟨Obj.mk "sda" none, 1, 0, 1048576, none, "sda1_part"⟩
        : PartitionState).get "offset"
      = some (.s (toString (⟨Obj.mk "sda" none, 1, 0, 1048576, none,
          "sda1_part"⟩ : PartitionState).offset ++ "B")) ∧
    pyInt (.n 1) = .ok (⟨Obj.mk "sda" none, 1, 0, 1048576, none,
        "sda1_part"⟩ : PartitionState).partnum ∧
    pyInt (.n 0) = .ok (⟨Obj.mk "sda" none, 1, 0, 1048576, none,
        "sda1_part"⟩ : PartitionState).offset ∧
    pyInt (.n 1048576) = .ok (⟨Obj.mk "sda" none, 1, 0, 1048576, none,
        "sda1_part"⟩ : PartitionState).size :=
  (partition_numeric_fields (Obj.mk "sda" none) (.n 1) (.n 0) (.n 1048576)
      none).1 _ rfl

end Subiquity
